import Mathlib

set_option maxRecDepth 10000

/-!
Verification of the backup reconciliation handler
(pkg/backup/handlers/arango/backup/handler.go) against its specification.

The Go handler is embedded shallowly: every network call (resource store
Get/Update/UpdateStatus/Create, deployment Get, driver List) is represented
by an oracle field in a context structure, and the handler body is a pure
function from the context and a store snapshot to a result, a new store
snapshot, and a trace of observable effects in program order.
-/

/-- Lifecycle states of a backup resource. Modelled from the spec: the closed
state enumeration (Pending, Scheduled, Uploading, Ready, Failed, Deleted) is
declared in the backup API package, which is not among the provided sources. -/
inductive LifecycleState where
  | pending
  | scheduled
  | uploading
  | ready
  | failed
  | deleted
deriving DecidableEq, Repr

/-- Errors surfaced by the handler. String payloads stand for opaque Go
error values; the structured constructors keep the errors the handler itself
constructs distinguishable. -/
inductive Err where
  | msg (s : String)
  | transit (src dst : LifecycleState)
  | unsupportedState (s : LifecycleState)
deriving DecidableEq, Repr

/-- Fetch outcomes: the store distinguishes a not-found result from other
failures (errors.IsNotFound in handler.Handle). -/
inductive FetchErr where
  | notFound
  | other (e : Err)
deriving DecidableEq, Repr

/-- backupApi.ArangoBackupDetails: external ID, version, creation time,
imported flag. -/
structure ArangoBackupDetails where
  id : String
  version : String
  creationTimestamp : Nat
  imported : Option Bool
deriving DecidableEq, Repr

/-- backupApi.ArangoBackupStatus with the embedded ArangoBackupState
flattened into its promoted fields (state, time, message). -/
structure ArangoBackupStatus where
  state : LifecycleState
  time : Nat
  message : String
  backup : Option ArangoBackupDetails
  available : Bool
deriving DecidableEq, Repr

/-- backupApi.ArangoBackupSpecDownload: the download request carries the
external backup identifier. -/
structure ArangoBackupSpecDownload where
  id : String
deriving DecidableEq, Repr

/-- backupApi.ArangoBackup: object metadata, spec (deployment reference and
optional download request), status, finalizer list, owner references and the
deletion marker. Owner references are reduced to the owning deployment name. -/
structure ArangoBackup where
  name : String
  ns : String
  specDeploymentName : String
  specDownload : Option ArangoBackupSpecDownload
  status : ArangoBackupStatus
  finalizers : List String
  ownerReferences : List String
  deletionTimestamp : Option Nat
deriving DecidableEq, Repr

/-- database.ArangoDeployment, reduced to its identity. -/
structure ArangoDeployment where
  name : String
  ns : String
deriving DecidableEq, Repr

/-- driver.BackupMeta: the physical backup descriptor reported by the
database driver. -/
structure BackupMeta where
  id : String
  version : String
deriving DecidableEq, Repr

/-- operation.Item: the work item delivered by the queue. -/
structure Item where
  ns : String
  name : String
deriving DecidableEq, Repr

/-- The store snapshot: the single backup resource under reconciliation
(none means the resource does not exist, so a Get yields not-found). -/
structure Store where
  backup : Option ArangoBackup
deriving DecidableEq, Repr

/-- Observable effects of one Handle invocation, recorded in program order. -/
inductive Effect where
  | finalizePath
  | finalizerWrite
  | lockAcquire
  | ownerWrite
  | dispatch
  | enqueue (it : Item)
  | transitCheck
  | eventWarning (src dst : LifecycleState)
  | eventNormal (src dst : LifecycleState)
  | statusWrite (st : ArangoBackupStatus)
deriving DecidableEq, Repr

/-- Effects that persist data through the store. -/
def Effect.isWrite : Effect → Bool
  | .finalizerWrite => true
  | .ownerWrite => true
  | .statusWrite _ => true
  | _ => false

/-- Status persistence effects (the updateBackupStatus call). -/
def Effect.isStatusWrite : Effect → Bool
  | .statusWrite _ => true
  | _ => false

/-- Oracle context for one Handle invocation: fault injections for each
store round trip and the functions the handler dispatches through. -/
structure Ctx where
  fetchFault : Option FetchErr
  finalizeResult : Except Err Unit
  finalizerUpdateFault : Option Err
  deploymentGetResult : Except Err ArangoDeployment
  ownerUpdateFault : Option Err
  validate : ArangoBackup → Option Err
  stateHolders : LifecycleState → Option (ArangoBackup → Except Err ArangoBackupStatus)
  transitGraph : LifecycleState → LifecycleState → Bool
  operatorPresent : Bool
  statusUpdateFault : Option Err
  now : Nat

/-- Modelled from the spec: the reserved finalizer token added to every
resource before state processing; its literal value is declared in the backup
API package, which is not among the provided sources. -/
def backupFinalizerToken : String := "backup.finalizer.arangodb.com"

/-- Modelled from the spec: hasFinalizers is an explicit list-membership
check for the reserved finalizer token (its body is not among the provided
sources). -/
def hasFinalizers (b : ArangoBackup) : Bool :=
  b.finalizers.contains backupFinalizerToken

/-- Modelled from the spec: appendFinalizers adds the reserved token to the
finalizer list (its body is not among the provided sources). -/
def appendFinalizers (b : ArangoBackup) : List String :=
  b.finalizers ++ [backupFinalizerToken]

/-- Modelled from the spec: ArangoBackupStateMap.Transit answers whether the
move a → b is legal; legal moves form a directed graph and self-transitions
are always legal (the concrete map is not among the provided sources, so the
graph itself stays a parameter). -/
def Transit (g : LifecycleState → LifecycleState → Bool) (a b : LifecycleState) : Bool :=
  a == b || g a b

/-- Modelled from the spec: createFailedState maps a validation failure to a
Failed status carrying the error message (its body is not among the provided
sources). -/
def createFailedState (e : Err) (current : ArangoBackupStatus) : ArangoBackupStatus :=
  { current with state := LifecycleState.failed, message := reprStr e }

/-- Modelled from the spec: the finalize path performs cleanup and then
strips the reserved finalizer token (h.finalize is not among the provided
sources); its outcome is an oracle and on success the token is removed. -/
def finalizeBackup (ctx : Ctx) (store : Store) (b : ArangoBackup) : Except Err Unit × Store :=
  match ctx.finalizeResult with
  | .error e => (.error e, store)
  | .ok _ =>
    (.ok (), { backup := some { b with finalizers := b.finalizers.filter (fun s => s != backupFinalizerToken) } })

/-- handler.processArangoBackup: validate the spec (a validation failure maps
to a Failed status with a nil error), then dispatch to the state holder
registered for the current state; an unregistered state is a hard error. -/
def processArangoBackup (ctx : Ctx) (backup : ArangoBackup) : Except Err ArangoBackupStatus :=
  match ctx.validate backup with
  | some e => .ok (createFailedState e backup.status)
  | none =>
    match ctx.stateHolders backup.status.state with
    | some f => f backup
    | none => .error (Err.unsupportedState backup.status.state)

/-- The Get at the top of handler.Handle: a fault injection wins, otherwise
the store snapshot answers (an absent resource is not-found). -/
def fetchBackup (ctx : Ctx) (store : Store) : Except FetchErr ArangoBackup :=
  match ctx.fetchFault with
  | some f => .error f
  | none =>
    match store.backup with
    | some b => .ok b
    | none => .error FetchErr.notFound

/-- The backup the state dispatch will see: when the owner reference list is
empty and the deployment Get succeeds the owner is attached first, otherwise
the backup is processed unchanged. -/
def attachOwner (ctx : Ctx) (b : ArangoBackup) : ArangoBackup :=
  if b.ownerReferences.isEmpty then
    match ctx.deploymentGetResult with
    | .ok d => { b with ownerReferences := [d.name] }
    | .error _ => b
  else b

/-- Tail of handler.Handle after the transition check passed: on an actual
state change stamp a fresh timestamp and emit the StateChange event (warning
class when entering Failed), then persist through updateBackupStatus. -/
def handleAfterTransit (ctx : Ctx) (store : Store) (b : ArangoBackup)
    (c : ArangoBackupStatus) (pre : List Effect) : Except Err Unit × Store × List Effect :=
  let stamped := if b.status.state ≠ c.state then { c with time := ctx.now } else c
  let ev : List Effect :=
    if b.status.state ≠ c.state then
      if c.state = LifecycleState.failed then [Effect.eventWarning b.status.state c.state]
      else [Effect.eventNormal b.status.state c.state]
    else []
  match ctx.statusUpdateFault with
  | some e => (.error e, store, pre ++ ev ++ [Effect.statusWrite stamped])
  | none => (.ok (), { backup := some { b with status := stamped } }, pre ++ ev ++ [Effect.statusWrite stamped])

/-- Middle of handler.Handle from the processArangoBackup call on: copy the
prior timestamp into the candidate, return early when the candidate equals
the current status, otherwise re-queue the item, check the transition against
the legality graph, and continue to the status write. -/
def handleProcess (ctx : Ctx) (store : Store) (item : Item) (b : ArangoBackup)
    (pre : List Effect) : Except Err Unit × Store × List Effect :=
  let pre := pre ++ [Effect.dispatch]
  match processArangoBackup ctx b with
  | .error e => (.error e, store, pre)
  | .ok c0 =>
    let c := { c0 with time := b.status.time }
    if b.status = c then (.ok (), store, pre)
    else
      let pre := pre ++ (if ctx.operatorPresent then [Effect.enqueue item] else []) ++ [Effect.transitCheck]
      if Transit ctx.transitGraph b.status.state c.state then
        handleAfterTransit ctx store b c pre
      else
        (.error (Err.transit b.status.state c.state), store, pre)

/-- Owner-reference step of handler.Handle: under the deployment lock, when
the owner list is empty resolve the deployment; a Get failure is swallowed,
while a failure of the Update persisting the attachment is returned. -/
def handleOwner (ctx : Ctx) (store : Store) (item : Item) (b : ArangoBackup) :
    Except Err Unit × Store × List Effect :=
  if b.ownerReferences.isEmpty then
    match ctx.deploymentGetResult with
    | .error _ => handleProcess ctx store item b [Effect.lockAcquire]
    | .ok d =>
      let b2 := { b with ownerReferences := [d.name] }
      match ctx.ownerUpdateFault with
      | some e => (.error e, store, [Effect.lockAcquire, Effect.ownerWrite])
      | none => handleProcess ctx { backup := some b2 } item b2 [Effect.lockAcquire, Effect.ownerWrite]
  else handleProcess ctx store item b [Effect.lockAcquire]

/-- handler.Handle: fetch (not-found is success), divert to the finalize path
on a deletion marker, attach the reserved finalizer as a lone write when
absent, then process under the deployment lock. -/
def Handle (ctx : Ctx) (store : Store) (item : Item) : Except Err Unit × Store × List Effect :=
  match fetchBackup ctx store with
  | .error FetchErr.notFound => (.ok (), store, [])
  | .error (FetchErr.other e) => (.error e, store, [])
  | .ok b =>
    if b.deletionTimestamp.isSome then
      let r := finalizeBackup ctx store b
      (r.1, r.2, [Effect.finalizePath])
    else if ¬ hasFinalizers b then
      let b2 := { b with finalizers := appendFinalizers b }
      match ctx.finalizerUpdateFault with
      | some e => (.error e, store, [Effect.finalizerWrite])
      | none => (.ok (), { backup := some b2 }, [Effect.finalizerWrite])
    else
      handleOwner ctx store item b

/-- Re-queue effects (the operator.EnqueueItem call). -/
def Effect.isEnqueue : Effect → Bool
  | .enqueue _ => true
  | _ => false

/-!
Status updater: utils.Retry and handler.updateBackupStatus. The store round
trips of each attempt are oracles indexed by the attempt number, so that each
attempt re-fetches the latest resource version.
-/

/-- Modelled from the spec: utils.Retry runs the action up to the given
number of attempts with the given spacing in seconds, stops at the first
success, and surfaces the error of the final attempt once the budget is
exhausted (utils.Retry is not among the provided sources). The attempt
index i names the attempt currently running. -/
def RetryFrom (f : Nat → Except Err Unit) (i : Nat) : Nat → Except Err Unit
  | 0 => .ok ()
  | 1 => f i
  | (m + 2) =>
    match f i with
    | .ok _ => .ok ()
    | .error _ => RetryFrom f (i + 1) (m + 1)

/-- Modelled from the spec: utils.Retry entry point (attempt budget, spacing
in seconds, action). The spacing is recorded but has no logical content. -/
def Retry (attempts : Nat) (_delaySeconds : Nat) (f : Nat → Except Err Unit) : Except Err Unit :=
  RetryFrom f 0 attempts

/-- One attempt of handler.updateBackupStatus: re-fetch the resource,
replace only its status with the desired one, and write it back with
UpdateStatus. -/
def statusAttempt (get : Nat → Except Err ArangoBackup)
    (write : Nat → ArangoBackup → Except Err Unit) (desired : ArangoBackupStatus)
    (i : Nat) : Except Err Unit :=
  match get i with
  | .error e => .error e
  | .ok backup => write i { backup with status := desired }

/-- handler.updateBackupStatus: the fetch-replace-write attempt under
utils.Retry with a budget of 25 attempts and one-second spacing. -/
def updateBackupStatus (get : Nat → Except Err ArangoBackup)
    (write : Nat → ArangoBackup → Except Err Unit) (desired : ArangoBackupStatus) :
    Except Err Unit :=
  Retry 25 1 (statusAttempt get write desired)

/-- The attempt budget handler.updateBackupStatus passes to utils.Retry. -/
def updateBackupStatusAttempts : Nat := 25

/-- The spacing in seconds handler.updateBackupStatus passes to utils.Retry. -/
def updateBackupStatusDelaySeconds : Nat := 1

/-!
Periodic refresher: handler.refreshDeploymentBackup.
-/

/-- Observable effects of one refreshDeploymentBackup call. -/
inductive REffect where
  | create (b : ArangoBackup)
  | writeStatus (st : ArangoBackupStatus)
deriving DecidableEq, Repr

/-- Oracle context for one refreshDeploymentBackup call. -/
structure RCtx where
  uuid : String
  now : Nat
  createFault : Option Err
  statusUpdateFault : Option Err

/-- The matching loop at the top of handler.refreshDeploymentBackup: an
existing resource matches the physical backup when its download request
carries the same external ID, or when it has a backup descriptor with the
same ID; a resource without a descriptor is skipped. -/
def backupMatched : List ArangoBackup → String → Bool
  | [], _ => false
  | b :: rest, id =>
    if (match b.specDownload with
        | some download => download.id == id
        | none => false) then true
    else
      match b.status.backup with
      | none => backupMatched rest id
      | some det => if det.id == id then true else backupMatched rest id

/-- The resource handler.refreshDeploymentBackup creates for an unmatched
physical backup: generated name, the deployment reference, empty status. -/
def newBackupFor (ctx : RCtx) (deployment : ArangoDeployment) : ArangoBackup :=
  { name := "backup-" ++ ctx.uuid
    ns := deployment.ns
    specDeploymentName := deployment.name
    specDownload := none
    status := { state := LifecycleState.pending, time := 0, message := "", backup := none, available := false }
    finalizers := []
    ownerReferences := []
    deletionTimestamp := none }

/-- The status handler.refreshDeploymentBackup writes for an unmatched
physical backup: descriptor copied from the driver with the imported flag
set, availability true, state Ready. -/
def importedStatus (ctx : RCtx) (backupMeta : BackupMeta) : ArangoBackupStatus :=
  { state := LifecycleState.ready
    time := ctx.now
    message := ""
    backup := some
      { id := backupMeta.id
        version := backupMeta.version
        creationTimestamp := ctx.now
        imported := some true }
    available := true }

/-- handler.refreshDeploymentBackup: return silently when some existing
resource matches the physical backup, otherwise create a fresh resource and
immediately write its status to Ready/imported through updateBackupStatus. -/
def refreshDeploymentBackup (ctx : RCtx) (deployment : ArangoDeployment)
    (backupMeta : BackupMeta) (backups : List ArangoBackup) :
    Except Err Unit × List REffect :=
  if backupMatched backups backupMeta.id then (.ok (), [])
  else
    let backup := newBackupFor ctx deployment
    match ctx.createFault with
    | some e => (.error e, [REffect.create backup])
    | none =>
      let st := importedStatus ctx backupMeta
      match ctx.statusUpdateFault with
      | some e => (.error e, [REffect.create backup, REffect.writeStatus st])
      | none => (.ok (), [REffect.create backup, REffect.writeStatus st])

/-!
Concrete sample objects shared by witnesses and counterexamples.
-/

/-- A steady-state status: Ready, available, no descriptor. -/
def sampleStatus : ArangoBackupStatus :=
  { state := LifecycleState.ready, time := 5, message := "", backup := none, available := true }

/-- A steady-state resource: finalizer attached, owner link present. -/
def sampleBackup : ArangoBackup :=
  { name := "b1"
    ns := "ns"
    specDeploymentName := "depl"
    specDownload := none
    status := sampleStatus
    finalizers := [backupFinalizerToken]
    ownerReferences := ["depl"]
    deletionTimestamp := none }

/-- A store holding the sample resource. -/
def sampleStore : Store := { backup := some sampleBackup }

/-- The work item naming the sample resource. -/
def sampleItem : Item := { ns := "ns", name := "b1" }

/-- A fault-free context: every store round trip succeeds, no state holder
is registered, the transition graph is empty, the operator is present. -/
def baseCtx : Ctx :=
  { fetchFault := none
    finalizeResult := Except.ok ()
    finalizerUpdateFault := none
    deploymentGetResult := Except.ok { name := "depl", ns := "ns" }
    ownerUpdateFault := none
    validate := fun _ => none
    stateHolders := fun _ => none
    transitGraph := fun _ _ => false
    operatorPresent := true
    statusUpdateFault := none
    now := 10 }

/-!
Claim theorems.
-/

/-- C9: a work item whose resource fetch yields a not-found result makes the
Event Handler return success (nil error) with no further processing; any
other fetch failure is returned as an error. Not-found arises either from a
fault injection or from an absent resource. -/
theorem c9_notFound_is_success_other_fetch_errors_propagate
    (ctx : Ctx) (store : Store) (item : Item) :
    (ctx.fetchFault = some FetchErr.notFound →
      Handle ctx store item = (Except.ok (), store, [])) ∧
    (∀ e, ctx.fetchFault = some (FetchErr.other e) →
      Handle ctx store item = (Except.error e, store, [])) ∧
    (ctx.fetchFault = none → store.backup = none →
      Handle ctx store item = (Except.ok (), store, [])) := by
  refine ⟨?_, ?_, ?_⟩
  · intro h
    simp [Handle, fetchBackup, h]
  · intro e h
    simp [Handle, fetchBackup, h]
  · intro h1 h2
    simp [Handle, fetchBackup, h1, h2]

/-- Witness for C9 at a concrete input: a not-found fetch is success, an
injected upstream error propagates, and an empty store is success. -/
theorem c9_witness :
    (Handle { baseCtx with fetchFault := some FetchErr.notFound } sampleStore sampleItem =
      (Except.ok (), sampleStore, [])) ∧
    (Handle { baseCtx with fetchFault := some (FetchErr.other (Err.msg "boom")) } sampleStore sampleItem =
      (Except.error (Err.msg "boom"), sampleStore, [])) ∧
    (Handle baseCtx { backup := none } sampleItem = (Except.ok (), { backup := none }, [])) := by
  refine ⟨?_, ?_, ?_⟩
  · exact (c9_notFound_is_success_other_fetch_errors_propagate _ sampleStore sampleItem).1 rfl
  · exact (c9_notFound_is_success_other_fetch_errors_propagate _ sampleStore sampleItem).2.1 (Err.msg "boom") rfl
  · exact (c9_notFound_is_success_other_fetch_errors_propagate baseCtx _ sampleItem).2.2 rfl rfl

/-- C5: a resource carrying a deletion marker diverts to the finalize path
immediately after the fetch and the Handle invocation returns the finalize
result; the trace is exactly the finalize-path marker, so finalizer
attachment, lock acquisition and the state dispatch are never reached. -/
theorem c5_deletion_marker_diverts_to_finalize
    (ctx : Ctx) (store : Store) (item : Item) (b : ArangoBackup) (t : Nat)
    (hfetch : fetchBackup ctx store = Except.ok b)
    (hdel : b.deletionTimestamp = some t) :
    Handle ctx store item =
      ((finalizeBackup ctx store b).1, (finalizeBackup ctx store b).2, [Effect.finalizePath]) ∧
    Effect.finalizerWrite ∉ (Handle ctx store item).2.2 ∧
    Effect.lockAcquire ∉ (Handle ctx store item).2.2 ∧
    Effect.dispatch ∉ (Handle ctx store item).2.2 ∧
    (∀ e ∈ (Handle ctx store item).2.2, e.isWrite = false) := by
  have h1 : Handle ctx store item =
      ((finalizeBackup ctx store b).1, (finalizeBackup ctx store b).2, [Effect.finalizePath]) := by
    simp [Handle, hfetch, hdel]
  refine ⟨h1, ?_, ?_, ?_, ?_⟩ <;> rw [h1] <;> simp [Effect.isWrite]

/-- Witness for C5: a Failed resource with a deletion marker is finalized,
the call returns success, and no write effect appears. -/
theorem c5_witness :
    Handle baseCtx
        { backup := some { sampleBackup with deletionTimestamp := some 7 } } sampleItem =
      ((finalizeBackup baseCtx
          { backup := some { sampleBackup with deletionTimestamp := some 7 } }
          { sampleBackup with deletionTimestamp := some 7 }).1,
       (finalizeBackup baseCtx
          { backup := some { sampleBackup with deletionTimestamp := some 7 } }
          { sampleBackup with deletionTimestamp := some 7 }).2,
       [Effect.finalizePath]) := by
  exact (c5_deletion_marker_diverts_to_finalize baseCtx
    { backup := some { sampleBackup with deletionTimestamp := some 7 } } sampleItem
    { sampleBackup with deletionTimestamp := some 7 } 7 rfl rfl).1

/-- C6: a resource without a deletion marker and without the reserved
finalizer token gets the token appended and persisted as a lone write, and
the invocation stops: the stored resource changes only in its finalizer
list, and no dispatch, enqueue, event or status write occurs. -/
theorem c6_finalizer_attach_is_a_lone_write
    (ctx : Ctx) (store : Store) (item : Item) (b : ArangoBackup)
    (hfetch : fetchBackup ctx store = Except.ok b)
    (hdel : b.deletionTimestamp = none)
    (hfin : hasFinalizers b = false)
    (hok : ctx.finalizerUpdateFault = none) :
    Handle ctx store item =
      (Except.ok (), { backup := some { b with finalizers := appendFinalizers b } },
       [Effect.finalizerWrite]) ∧
    ({ b with finalizers := appendFinalizers b }.status = b.status ∧
     { b with finalizers := appendFinalizers b }.name = b.name ∧
     { b with finalizers := appendFinalizers b }.ns = b.ns ∧
     { b with finalizers := appendFinalizers b }.specDeploymentName = b.specDeploymentName ∧
     { b with finalizers := appendFinalizers b }.specDownload = b.specDownload ∧
     { b with finalizers := appendFinalizers b }.ownerReferences = b.ownerReferences ∧
     { b with finalizers := appendFinalizers b }.deletionTimestamp = b.deletionTimestamp) ∧
    (∀ e ∈ (Handle ctx store item).2.2,
      e.isStatusWrite = false ∧ e.isEnqueue = false ∧ e ≠ Effect.dispatch) := by
  have h1 : Handle ctx store item =
      (Except.ok (), { backup := some { b with finalizers := appendFinalizers b } },
       [Effect.finalizerWrite]) := by
    simp [Handle, hfetch, hdel, hfin, hok]
  refine ⟨h1, ⟨rfl, rfl, rfl, rfl, rfl, rfl, rfl⟩, ?_⟩
  rw [h1]
  simp [Effect.isStatusWrite, Effect.isEnqueue]

/-- Witness for C6: a fresh resource without the token gets exactly the
finalizer write and nothing else. -/
theorem c6_witness :
    Handle baseCtx { backup := some { sampleBackup with finalizers := [] } } sampleItem =
      (Except.ok (),
       { backup := some { sampleBackup with finalizers := [backupFinalizerToken] } },
       [Effect.finalizerWrite]) := by
  have h := (c6_finalizer_attach_is_a_lone_write baseCtx
    { backup := some { sampleBackup with finalizers := [] } } sampleItem
    { sampleBackup with finalizers := [] } rfl rfl (by decide) rfl).1
  simpa [appendFinalizers] using h

/-!
Reduction lemmas shared by the remaining claims.
-/

/-- Two statuses whose states differ are different. -/
lemma status_ne_of_state_ne {s c : ArangoBackupStatus} (h : s.state ≠ c.state) : s ≠ c :=
  fun he => h (by rw [he])

/-- attachOwner never changes the status. -/
lemma attachOwner_status (ctx : Ctx) (b : ArangoBackup) :
    (attachOwner ctx b).status = b.status := by
  unfold attachOwner
  by_cases h : b.ownerReferences.isEmpty
  · simp only [h, if_true]
    cases ctx.deploymentGetResult <;> rfl
  · simp [h]

/-- A fetched resource with a deletion marker absent, the finalizer present:
Handle reduces to the owner step. -/
lemma Handle_toOwner (ctx : Ctx) (store : Store) (item : Item) (b : ArangoBackup)
    (hfetch : fetchBackup ctx store = Except.ok b)
    (hdel : b.deletionTimestamp = none)
    (hfin : hasFinalizers b = true) :
    Handle ctx store item = handleOwner ctx store item b := by
  simp [Handle, hfetch, hdel, hfin]

/-- Owner already linked: the owner step is a no-op before processing. -/
lemma handleOwner_ownerPresent (ctx : Ctx) (store : Store) (item : Item) (b : ArangoBackup)
    (h : b.ownerReferences.isEmpty = false) :
    handleOwner ctx store item b = handleProcess ctx store item b [Effect.lockAcquire] := by
  simp [handleOwner, h]

/-- Owner missing and the deployment Get fails: the failure is swallowed and
processing continues on the unchanged resource. -/
lemma handleOwner_getFails (ctx : Ctx) (store : Store) (item : Item) (b : ArangoBackup)
    (e : Err) (hemp : b.ownerReferences.isEmpty = true)
    (hget : ctx.deploymentGetResult = Except.error e) :
    handleOwner ctx store item b = handleProcess ctx store item b [Effect.lockAcquire] := by
  simp [handleOwner, hemp, hget]

/-- Owner missing, deployment resolved, attachment persisted: processing
continues on the resource carrying the owner link. -/
lemma handleOwner_attach (ctx : Ctx) (store : Store) (item : Item) (b : ArangoBackup)
    (d : ArangoDeployment) (hemp : b.ownerReferences.isEmpty = true)
    (hget : ctx.deploymentGetResult = Except.ok d)
    (hof : ctx.ownerUpdateFault = none) :
    handleOwner ctx store item b =
      handleProcess ctx { backup := some { b with ownerReferences := [d.name] } } item
        { b with ownerReferences := [d.name] } [Effect.lockAcquire, Effect.ownerWrite] := by
  simp [handleOwner, hemp, hget, hof]

/-- Owner missing, deployment resolved, but the Update persisting the
attachment fails: that error is returned. -/
lemma handleOwner_attachFails (ctx : Ctx) (store : Store) (item : Item) (b : ArangoBackup)
    (d : ArangoDeployment) (e : Err) (hemp : b.ownerReferences.isEmpty = true)
    (hget : ctx.deploymentGetResult = Except.ok d)
    (hof : ctx.ownerUpdateFault = some e) :
    handleOwner ctx store item b =
      (Except.error e, store, [Effect.lockAcquire, Effect.ownerWrite]) := by
  simp [handleOwner, hemp, hget, hof]

/-- handleProcess on an illegal transition: the item is re-queued, then the
legality check fails, the transition error is returned and the status write
is never reached. -/
lemma handleProcess_illegal (ctx : Ctx) (store : Store) (item : Item) (b : ArangoBackup)
    (pre : List Effect) (c : ArangoBackupStatus)
    (hproc : processArangoBackup ctx b = Except.ok c)
    (hop : ctx.operatorPresent = true)
    (hillegal : Transit ctx.transitGraph b.status.state c.state = false) :
    handleProcess ctx store item b pre =
      (Except.error (Err.transit b.status.state c.state), store,
       pre ++ [Effect.dispatch, Effect.enqueue item, Effect.transitCheck]) := by
  have hstate : b.status.state ≠ c.state := by
    intro he
    rw [Transit, he] at hillegal
    simp at hillegal
  have hne : ¬ (b.status = { c with time := b.status.time }) :=
    status_ne_of_state_ne (by simpa using hstate)
  simp [handleProcess, hproc, hop, hne, hillegal]

/-- handleProcess when the candidate with the copied timestamp equals the
current status: success with no write and no re-queue. -/
lemma handleProcess_noop (ctx : Ctx) (store : Store) (item : Item) (b : ArangoBackup)
    (pre : List Effect) (c : ArangoBackupStatus)
    (hproc : processArangoBackup ctx b = Except.ok c)
    (heq : { c with time := b.status.time } = b.status) :
    handleProcess ctx store item b pre = (Except.ok (), store, pre ++ [Effect.dispatch]) := by
  simp [handleProcess, hproc, heq]

/-- handleProcess on a legal transition without a state change: the written
status keeps the copied prior timestamp and no event is emitted. -/
lemma handleProcess_write_sameState (ctx : Ctx) (store : Store) (item : Item)
    (b : ArangoBackup) (pre : List Effect) (c : ArangoBackupStatus)
    (hproc : processArangoBackup ctx b = Except.ok c)
    (hop : ctx.operatorPresent = true)
    (hne : ¬ ({ c with time := b.status.time } = b.status))
    (hstate : b.status.state = c.state)
    (hsw : ctx.statusUpdateFault = none) :
    handleProcess ctx store item b pre =
      (Except.ok (),
       { backup := some { b with status := { c with time := b.status.time } } },
       pre ++ [Effect.dispatch, Effect.enqueue item, Effect.transitCheck,
               Effect.statusWrite { c with time := b.status.time }]) := by
  have hne2 : ¬ (b.status = { c with time := b.status.time }) := fun h => hne h.symm
  simp [handleProcess, handleAfterTransit, Transit, hproc, hop, hne2, hstate, hsw]

/-- handleProcess on a legal transition with an actual state change: a fresh
timestamp is stamped, the StateChange event is emitted (warning class when
entering Failed), and the stamped status is written. -/
lemma handleProcess_write_stateChange (ctx : Ctx) (store : Store) (item : Item)
    (b : ArangoBackup) (pre : List Effect) (c : ArangoBackupStatus)
    (hproc : processArangoBackup ctx b = Except.ok c)
    (hop : ctx.operatorPresent = true)
    (hstate : b.status.state ≠ c.state)
    (hlegal : Transit ctx.transitGraph b.status.state c.state = true)
    (hsw : ctx.statusUpdateFault = none) :
    handleProcess ctx store item b pre =
      (Except.ok (),
       { backup := some { b with status := { c with time := ctx.now } } },
       pre ++ [Effect.dispatch, Effect.enqueue item, Effect.transitCheck] ++
         (if c.state = LifecycleState.failed then [Effect.eventWarning b.status.state c.state]
          else [Effect.eventNormal b.status.state c.state]) ++
         [Effect.statusWrite { c with time := ctx.now }]) := by
  have hne2 : ¬ (b.status = { c with time := b.status.time }) :=
    status_ne_of_state_ne (by simpa using hstate)
  simp [handleProcess, handleAfterTransit, hproc, hop, hne2, hlegal, hstate, hsw]

/-- C1: when the state handler proposes a move the transition-legality graph
does not allow, the Event Handler returns the transition error, no status
write effect occurs (the persistence call is never reached), and the
re-queue of the item happens immediately before the legality check. -/
theorem c1_illegal_transition_errors_without_status_write
    (ctx : Ctx) (store : Store) (item : Item) (b : ArangoBackup) (c : ArangoBackupStatus)
    (hfetch : fetchBackup ctx store = Except.ok b)
    (hdel : b.deletionTimestamp = none)
    (hfin : hasFinalizers b = true)
    (hof : ctx.ownerUpdateFault = none)
    (hop : ctx.operatorPresent = true)
    (hproc : processArangoBackup ctx (attachOwner ctx b) = Except.ok c)
    (hillegal : Transit ctx.transitGraph b.status.state c.state = false) :
    (Handle ctx store item).1 = Except.error (Err.transit b.status.state c.state) ∧
    (∀ e ∈ (Handle ctx store item).2.2, e.isStatusWrite = false) ∧
    (∃ pre, (Handle ctx store item).2.2 = pre ++ [Effect.enqueue item, Effect.transitCheck]) := by
  rw [Handle_toOwner ctx store item b hfetch hdel hfin]
  cases hemp : b.ownerReferences.isEmpty with
  | false =>
    have hb : attachOwner ctx b = b := by simp [attachOwner, hemp]
    rw [hb] at hproc
    rw [handleOwner_ownerPresent ctx store item b hemp,
        handleProcess_illegal ctx store item b _ c hproc hop hillegal]
    refine ⟨rfl, ?_, ⟨[Effect.lockAcquire, Effect.dispatch], by simp⟩⟩
    intro e he
    simp at he
    rcases he with rfl | rfl | rfl | rfl <;> rfl
  | true =>
    cases hget : ctx.deploymentGetResult with
    | error e0 =>
      have hb : attachOwner ctx b = b := by simp [attachOwner, hemp, hget]
      rw [hb] at hproc
      rw [handleOwner_getFails ctx store item b e0 hemp hget,
          handleProcess_illegal ctx store item b _ c hproc hop hillegal]
      refine ⟨rfl, ?_, ⟨[Effect.lockAcquire, Effect.dispatch], by simp⟩⟩
      intro e he
      simp at he
      rcases he with rfl | rfl | rfl | rfl <;> rfl
    | ok d =>
      have hb : attachOwner ctx b = { b with ownerReferences := [d.name] } := by
        simp [attachOwner, hemp, hget]
      rw [hb] at hproc
      rw [handleOwner_attach ctx store item b d hemp hget hof,
          handleProcess_illegal ctx { backup := some { b with ownerReferences := [d.name] } }
            item { b with ownerReferences := [d.name] }
            [Effect.lockAcquire, Effect.ownerWrite] c hproc hop hillegal]
      refine ⟨rfl, ?_, ⟨[Effect.lockAcquire, Effect.ownerWrite, Effect.dispatch], by simp⟩⟩
      intro e he
      simp at he
      rcases he with rfl | rfl | rfl | rfl | rfl <;> rfl

/-- A context whose only registered state holder proposes Ready → Pending
while the transition graph is empty, so the move is illegal. -/
def c1ctx : Ctx :=
  { baseCtx with
    stateHolders := fun s =>
      if s = LifecycleState.ready then
        some (fun bb => Except.ok { bb.status with state := LifecycleState.pending })
      else none }

/-- Witness for C1: the illegal Ready → Pending proposal returns the
transition error, writes no status, and re-queues right before the check. -/
theorem c1_witness :
    (Handle c1ctx sampleStore sampleItem).1 =
      Except.error (Err.transit LifecycleState.ready LifecycleState.pending) ∧
    (∀ e ∈ (Handle c1ctx sampleStore sampleItem).2.2, e.isStatusWrite = false) ∧
    (∃ pre, (Handle c1ctx sampleStore sampleItem).2.2 =
      pre ++ [Effect.enqueue sampleItem, Effect.transitCheck]) :=
  c1_illegal_transition_errors_without_status_write c1ctx sampleStore sampleItem
    sampleBackup { sampleStatus with state := LifecycleState.pending }
    rfl rfl (by decide) rfl rfl rfl (by decide)

/-- C2 (amended): for every resource whose state handler produces a
candidate semantically identical to the current status after the prior
timestamp is copied in, the Event Handler performs no status write and no
re-queue; when the owner link is already present it performs no write at
all and leaves the store untouched, so a second Handle call in succession
also performs zero writes and zero re-queues. -/
theorem c2_noop_skips_write_and_requeue
    (ctx : Ctx) (store : Store) (item : Item) (b : ArangoBackup) (c : ArangoBackupStatus)
    (hfetch : fetchBackup ctx store = Except.ok b)
    (hdel : b.deletionTimestamp = none)
    (hfin : hasFinalizers b = true)
    (hof : ctx.ownerUpdateFault = none)
    (hproc : processArangoBackup ctx (attachOwner ctx b) = Except.ok c)
    (heq : { c with time := b.status.time } = b.status) :
    (Handle ctx store item).1 = Except.ok () ∧
    (∀ e ∈ (Handle ctx store item).2.2, e.isStatusWrite = false ∧ e.isEnqueue = false) ∧
    (b.ownerReferences.isEmpty = false →
      Handle ctx store item = (Except.ok (), store, [Effect.lockAcquire, Effect.dispatch]) ∧
      Handle ctx (Handle ctx store item).2.1 item =
        (Except.ok (), store, [Effect.lockAcquire, Effect.dispatch]) ∧
      (∀ e ∈ (Handle ctx (Handle ctx store item).2.1 item).2.2,
        e.isWrite = false ∧ e.isEnqueue = false)) := by
  cases hemp : b.ownerReferences.isEmpty with
  | false =>
    have hb : attachOwner ctx b = b := by simp [attachOwner, hemp]
    rw [hb] at hproc
    have h2 : Handle ctx store item =
        (Except.ok (), store, [Effect.lockAcquire, Effect.dispatch]) := by
      rw [Handle_toOwner ctx store item b hfetch hdel hfin,
          handleOwner_ownerPresent ctx store item b hemp,
          handleProcess_noop ctx store item b _ c hproc heq]
      simp
    have h3 : Handle ctx (Handle ctx store item).2.1 item =
        (Except.ok (), store, [Effect.lockAcquire, Effect.dispatch]) := by
      rw [h2]
      exact h2
    refine ⟨by rw [h2], ?_, fun _ => ⟨h2, h3, ?_⟩⟩
    · rw [h2]
      intro e he
      simp at he
      rcases he with rfl | rfl <;> exact ⟨rfl, rfl⟩
    · rw [h3]
      intro e he
      simp at he
      rcases he with rfl | rfl <;> exact ⟨rfl, rfl⟩
  | true =>
    cases hget : ctx.deploymentGetResult with
    | error e0 =>
      have hb : attachOwner ctx b = b := by simp [attachOwner, hemp, hget]
      rw [hb] at hproc
      have h2 : Handle ctx store item =
          (Except.ok (), store, [Effect.lockAcquire, Effect.dispatch]) := by
        rw [Handle_toOwner ctx store item b hfetch hdel hfin,
            handleOwner_getFails ctx store item b e0 hemp hget,
            handleProcess_noop ctx store item b _ c hproc heq]
        simp
      refine ⟨by rw [h2], ?_, ?_⟩
      · rw [h2]
        intro e he
        simp at he
        rcases he with rfl | rfl <;> exact ⟨rfl, rfl⟩
      · intro howner
        simp [hemp] at howner
    | ok d =>
      have hb : attachOwner ctx b = { b with ownerReferences := [d.name] } := by
        simp [attachOwner, hemp, hget]
      rw [hb] at hproc
      have h2 : Handle ctx store item =
          (Except.ok (), { backup := some { b with ownerReferences := [d.name] } },
           [Effect.lockAcquire, Effect.ownerWrite, Effect.dispatch]) := by
        rw [Handle_toOwner ctx store item b hfetch hdel hfin,
            handleOwner_attach ctx store item b d hemp hget hof,
            handleProcess_noop ctx { backup := some { b with ownerReferences := [d.name] } }
              item { b with ownerReferences := [d.name] } _ c hproc heq]
        simp
      refine ⟨by rw [h2], ?_, ?_⟩
      · rw [h2]
        intro e he
        simp at he
        rcases he with rfl | rfl | rfl <;> exact ⟨rfl, rfl⟩
      · intro howner
        simp [hemp] at howner

/-- A context whose only registered state holder returns the current status
unchanged for a Ready resource. -/
def c2ctx : Ctx :=
  { baseCtx with
    stateHolders := fun s =>
      if s = LifecycleState.ready then some (fun bb => Except.ok bb.status)
      else none }

/-- Witness for the amended C2: a steady-state Ready resource with its
owner link present is handled with zero writes and zero re-queues, twice in
a row. -/
theorem c2_witness :
    (Handle c2ctx sampleStore sampleItem).1 = Except.ok () ∧
    (∀ e ∈ (Handle c2ctx sampleStore sampleItem).2.2,
      e.isStatusWrite = false ∧ e.isEnqueue = false) ∧
    (sampleBackup.ownerReferences.isEmpty = false →
      Handle c2ctx sampleStore sampleItem =
        (Except.ok (), sampleStore, [Effect.lockAcquire, Effect.dispatch]) ∧
      Handle c2ctx (Handle c2ctx sampleStore sampleItem).2.1 sampleItem =
        (Except.ok (), sampleStore, [Effect.lockAcquire, Effect.dispatch]) ∧
      (∀ e ∈ (Handle c2ctx (Handle c2ctx sampleStore sampleItem).2.1 sampleItem).2.2,
        e.isWrite = false ∧ e.isEnqueue = false)) := by
  exact c2_noop_skips_write_and_requeue c2ctx sampleStore sampleItem
    sampleBackup sampleStatus rfl rfl (by decide) rfl rfl (by decide)

/-- The sample resource with its owner link removed. -/
def c2noOwnerBackup : ArangoBackup := { sampleBackup with ownerReferences := [] }

/-- A store holding the owner-less sample resource. -/
def c2noOwnerStore : Store := { backup := some c2noOwnerBackup }

/-- Counterexample to C2 as stated: for this resource the state handler
produces a candidate identical to the current status, yet the Handle
invocation performs a write (the owner-attachment Update), so "performs no
write" fails; only the status write and the re-queue are suppressed. -/
theorem c2_counterexample :
    processArangoBackup c2ctx (attachOwner c2ctx c2noOwnerBackup) =
      Except.ok c2noOwnerBackup.status ∧
    (Handle c2ctx c2noOwnerStore sampleItem).1 = Except.ok () ∧
    (Handle c2ctx c2noOwnerStore sampleItem).2.2.filter Effect.isWrite =
      [Effect.ownerWrite] := by
  refine ⟨rfl, rfl, rfl⟩

/-- C8 (amended): when the owner link is missing, the Event Handler resolves
the referenced deployment and attaches it; a failure of the deployment
resolution itself is swallowed and processing continues unchanged, but a
failure of the Update persisting the attachment is returned as the result of
the Handle invocation. -/
theorem c8_owner_get_swallowed_update_failure_returned
    (ctx : Ctx) (store : Store) (item : Item) (b : ArangoBackup)
    (hfetch : fetchBackup ctx store = Except.ok b)
    (hdel : b.deletionTimestamp = none)
    (hfin : hasFinalizers b = true) :
    (∀ e, ctx.deploymentGetResult = Except.error e →
      Handle ctx store item = handleProcess ctx store item b [Effect.lockAcquire]) ∧
    (∀ e d, b.ownerReferences.isEmpty = true →
      ctx.deploymentGetResult = Except.ok d →
      ctx.ownerUpdateFault = some e →
      Handle ctx store item = (Except.error e, store, [Effect.lockAcquire, Effect.ownerWrite])) := by
  constructor
  · intro e hget
    rw [Handle_toOwner ctx store item b hfetch hdel hfin]
    cases hemp : b.ownerReferences.isEmpty with
    | false => exact handleOwner_ownerPresent ctx store item b hemp
    | true => exact handleOwner_getFails ctx store item b e hemp hget
  · intro e d hemp hget hof
    rw [Handle_toOwner ctx store item b hfetch hdel hfin]
    exact handleOwner_attachFails ctx store item b d e hemp hget hof

/-- A context in which the deployment resolution fails. -/
def c8getFailCtx : Ctx := { c2ctx with deploymentGetResult := Except.error (Err.msg "get failed") }

/-- Witness for the amended C8: with a failing deployment Get, the Handle
invocation continues to state processing on the unchanged resource. -/
theorem c8_witness :
    Handle c8getFailCtx c2noOwnerStore sampleItem =
      handleProcess c8getFailCtx c2noOwnerStore sampleItem c2noOwnerBackup
        [Effect.lockAcquire] := by
  exact (c8_owner_get_swallowed_update_failure_returned c8getFailCtx c2noOwnerStore
    sampleItem c2noOwnerBackup rfl rfl (by decide)).1 (Err.msg "get failed") rfl

/-- A context in which the owner-attachment Update fails. -/
def c8updFailCtx : Ctx := { c2ctx with ownerUpdateFault := some (Err.msg "owner update failed") }

/-- Counterexample to C8 as stated: for an owner-less resource whose
deployment resolves, a failure of the Update persisting the owner attachment
is returned by Handle, so that failure is not swallowed. -/
theorem c8_counterexample :
    c2noOwnerBackup.ownerReferences = [] ∧
    c8updFailCtx.deploymentGetResult = Except.ok { name := "depl", ns := "ns" } ∧
    (Handle c8updFailCtx c2noOwnerStore sampleItem).1 =
      Except.error (Err.msg "owner update failed") := by
  refine ⟨rfl, rfl, rfl⟩

/-- A status write never hides inside the StateChange event list. -/
lemma statusWrite_not_mem_events (s : ArangoBackupStatus) (P : Prop) [Decidable P]
    (x y : LifecycleState) :
    Effect.statusWrite s ∉
      (if P then [Effect.eventWarning x y] else [Effect.eventNormal x y]) := by
  split <;> simp

/-- Any status handleProcess writes carries the copied prior timestamp when
the state is unchanged and the fresh clock value when the state differs. -/
lemma handleProcess_statusWrite_time (ctx : Ctx) (store : Store) (item : Item)
    (b : ArangoBackup) (pre : List Effect) (c : ArangoBackupStatus)
    (hpre : ∀ s, Effect.statusWrite s ∉ pre)
    (hproc : processArangoBackup ctx b = Except.ok c)
    (hop : ctx.operatorPresent = true)
    (hsw : ctx.statusUpdateFault = none) :
    ∀ s, Effect.statusWrite s ∈ (handleProcess ctx store item b pre).2.2 →
      (s.state = b.status.state → s.time = b.status.time) ∧
      (s.state ≠ b.status.state → s.time = ctx.now) := by
  intro s hs
  by_cases heq : ({ c with time := b.status.time } : ArangoBackupStatus) = b.status
  · rw [handleProcess_noop ctx store item b pre c hproc heq] at hs
    have hmem : Effect.statusWrite s ∈ pre := by simpa using hs
    exact absurd hmem (hpre s)
  · by_cases hleg : Transit ctx.transitGraph b.status.state c.state = true
    · by_cases hst : b.status.state = c.state
      · rw [handleProcess_write_sameState ctx store item b pre c hproc hop heq hst hsw] at hs
        have hmem : Effect.statusWrite s ∈ pre ∨
            s = { c with time := b.status.time } := by simpa using hs
        rcases hmem with hmem | rfl
        · exact absurd hmem (hpre s)
        · refine ⟨fun _ => rfl, fun hcontra => ?_⟩
          exact absurd hst.symm hcontra
      · rw [handleProcess_write_stateChange ctx store item b pre c hproc hop hst hleg hsw] at hs
        have hmem : Effect.statusWrite s ∈ pre ∨
            s = { c with time := ctx.now } := by
          simpa [statusWrite_not_mem_events] using hs
        rcases hmem with hmem | rfl
        · exact absurd hmem (hpre s)
        · refine ⟨fun hcontra => ?_, fun _ => rfl⟩
          exact absurd hcontra.symm hst
    · have hleg2 : Transit ctx.transitGraph b.status.state c.state = false := by
        revert hleg
        cases Transit ctx.transitGraph b.status.state c.state <;> simp
      rw [handleProcess_illegal ctx store item b pre c hproc hop hleg2] at hs
      have hmem : Effect.statusWrite s ∈ pre := by simpa using hs
      exact absurd hmem (hpre s)

/-- C7: the candidate keeps the prior status timestamp unless the state
actually changes: the timestamp of the current status is copied into the
candidate before the no-op comparison (so an otherwise-identical candidate
causes no write at all), and every status actually written carries the prior
timestamp when its state equals the current state and the fresh clock value
when it differs. -/
theorem c7_timestamp_preserved_unless_state_changes
    (ctx : Ctx) (store : Store) (item : Item) (b : ArangoBackup) (c : ArangoBackupStatus)
    (hfetch : fetchBackup ctx store = Except.ok b)
    (hdel : b.deletionTimestamp = none)
    (hfin : hasFinalizers b = true)
    (hof : ctx.ownerUpdateFault = none)
    (hop : ctx.operatorPresent = true)
    (hproc : processArangoBackup ctx (attachOwner ctx b) = Except.ok c)
    (hsw : ctx.statusUpdateFault = none) :
    (∀ s, Effect.statusWrite s ∈ (Handle ctx store item).2.2 →
      (s.state = b.status.state → s.time = b.status.time) ∧
      (s.state ≠ b.status.state → s.time = ctx.now)) ∧
    ({ c with time := b.status.time } = b.status →
      ∀ s, Effect.statusWrite s ∉ (Handle ctx store item).2.2) := by
  rw [Handle_toOwner ctx store item b hfetch hdel hfin]
  cases hemp : b.ownerReferences.isEmpty with
  | false =>
    have hb : attachOwner ctx b = b := by simp [attachOwner, hemp]
    rw [hb] at hproc
    rw [handleOwner_ownerPresent ctx store item b hemp]
    constructor
    · exact handleProcess_statusWrite_time ctx store item b [Effect.lockAcquire] c
        (by intro s hs; simp at hs) hproc hop hsw
    · intro heq s
      rw [handleProcess_noop ctx store item b _ c hproc heq]
      simp
  | true =>
    cases hget : ctx.deploymentGetResult with
    | error e0 =>
      have hb : attachOwner ctx b = b := by simp [attachOwner, hemp, hget]
      rw [hb] at hproc
      rw [handleOwner_getFails ctx store item b e0 hemp hget]
      constructor
      · exact handleProcess_statusWrite_time ctx store item b [Effect.lockAcquire] c
          (by intro s hs; simp at hs) hproc hop hsw
      · intro heq s
        rw [handleProcess_noop ctx store item b _ c hproc heq]
        simp
    | ok d =>
      have hb : attachOwner ctx b = { b with ownerReferences := [d.name] } := by
        simp [attachOwner, hemp, hget]
      rw [hb] at hproc
      rw [handleOwner_attach ctx store item b d hemp hget hof]
      constructor
      · exact handleProcess_statusWrite_time ctx
          { backup := some { b with ownerReferences := [d.name] } } item
          { b with ownerReferences := [d.name] } [Effect.lockAcquire, Effect.ownerWrite] c
          (by intro s hs; simp at hs) hproc hop hsw
      · intro heq s
        rw [handleProcess_noop ctx { backup := some { b with ownerReferences := [d.name] } }
          item { b with ownerReferences := [d.name] } _ c hproc heq]
        simp

/-- A context whose state holder proposes a legal Ready → Failed move. -/
def c7ctx : Ctx :=
  { baseCtx with
    stateHolders := fun s =>
      if s = LifecycleState.ready then
        some (fun bb => Except.ok
          { bb.status with state := LifecycleState.failed, message := "boom" })
      else none
    transitGraph := fun a bb =>
      a == LifecycleState.ready && bb == LifecycleState.failed }

/-- Witness for C7: on the legal Ready → Failed run every written status
carries the fresh clock value, since the state changed. -/
theorem c7_witness :
    (∀ s, Effect.statusWrite s ∈ (Handle c7ctx sampleStore sampleItem).2.2 →
      (s.state = sampleBackup.status.state → s.time = sampleBackup.status.time) ∧
      (s.state ≠ sampleBackup.status.state → s.time = c7ctx.now)) ∧
    ({ { sampleStatus with state := LifecycleState.failed, message := "boom" } with
        time := sampleBackup.status.time } = sampleBackup.status →
      ∀ s, Effect.statusWrite s ∉ (Handle c7ctx sampleStore sampleItem).2.2) := by
  exact c7_timestamp_preserved_unless_state_changes c7ctx sampleStore sampleItem
    sampleBackup { sampleStatus with state := LifecycleState.failed, message := "boom" }
    rfl rfl (by decide) rfl rfl rfl rfl

/-- The download-request arm of the matching loop as a predicate. -/
def downloadMatches (b : ArangoBackup) (id : String) : Bool :=
  match b.specDownload with
  | some download => download.id == id
  | none => false

/-- The backup-descriptor arm of the matching loop as a predicate. -/
def descriptorMatches (b : ArangoBackup) (id : String) : Bool :=
  match b.status.backup with
  | some det => det.id == id
  | none => false

/-- One step of the matching loop tests the download request, skips a
missing descriptor, and tests the descriptor. -/
lemma backupMatched_cons (b : ArangoBackup) (rest : List ArangoBackup) (id : String) :
    backupMatched (b :: rest) id =
      (downloadMatches b id || descriptorMatches b id || backupMatched rest id) := by
  rcases hd : b.specDownload with _ | dl
  · rcases hb : b.status.backup with _ | det
    · simp [backupMatched, downloadMatches, descriptorMatches, hd, hb]
    · cases hdet : (det.id == id) <;>
        simp [backupMatched, downloadMatches, descriptorMatches, hd, hb, hdet]
  · rcases hb : b.status.backup with _ | det
    · cases hdl : (dl.id == id) <;>
        simp [backupMatched, downloadMatches, descriptorMatches, hd, hb, hdl]
    · cases hdl : (dl.id == id) <;> cases hdet : (det.id == id) <;>
        simp [backupMatched, downloadMatches, descriptorMatches, hd, hb, hdl, hdet]

/-- Membership of a matching resource makes the loop report a match. -/
lemma backupMatched_of_mem (backups : List ArangoBackup) (b : ArangoBackup) (id : String)
    (hmem : b ∈ backups)
    (h : downloadMatches b id = true ∨ descriptorMatches b id = true) :
    backupMatched backups id = true := by
  induction backups with
  | nil => cases hmem
  | cons hd tl ih =>
    rw [backupMatched_cons]
    rcases List.mem_cons.mp hmem with rfl | hmem2
    · rcases h with h | h <;> simp [h]
    · simp [ih hmem2]

/-- C10: a physical backup whose external ID equals some existing resource's
download-request ID, or the descriptor ID of some existing resource that has
a descriptor, makes the refresh step return success with no create and no
write; resources without a descriptor are skipped without fault. -/
theorem c10_matched_backup_produces_no_writes
    (ctx : RCtx) (deployment : ArangoDeployment) (backupMeta : BackupMeta)
    (backups : List ArangoBackup) (b : ArangoBackup)
    (hmem : b ∈ backups)
    (hmatch : (∃ dl, b.specDownload = some dl ∧ dl.id = backupMeta.id) ∨
              (∃ det, b.status.backup = some det ∧ det.id = backupMeta.id)) :
    refreshDeploymentBackup ctx deployment backupMeta backups = (Except.ok (), []) := by
  have hbool : downloadMatches b backupMeta.id = true ∨
      descriptorMatches b backupMeta.id = true := by
    rcases hmatch with ⟨dl, hdl, hid⟩ | ⟨det, hdet, hid⟩
    · left
      simp [downloadMatches, hdl, hid]
    · right
      simp [descriptorMatches, hdet, hid]
  have hmatched := backupMatched_of_mem backups b backupMeta.id hmem hbool
  simp [refreshDeploymentBackup, hmatched]

/-- C3: a physical backup unmatched by every existing resource yields
exactly one created resource (generated name, referencing the deployment)
followed immediately by one status write putting it in Ready with the
imported flag set and availability true — no other write, so no
intermediate state is ever persisted. -/
theorem c3_unmatched_backup_created_directly_ready_imported
    (ctx : RCtx) (deployment : ArangoDeployment) (backupMeta : BackupMeta)
    (backups : List ArangoBackup)
    (hun : backupMatched backups backupMeta.id = false)
    (hc : ctx.createFault = none)
    (hu : ctx.statusUpdateFault = none) :
    refreshDeploymentBackup ctx deployment backupMeta backups =
      (Except.ok (),
       [REffect.create (newBackupFor ctx deployment),
        REffect.writeStatus (importedStatus ctx backupMeta)]) ∧
    (newBackupFor ctx deployment).specDeploymentName = deployment.name ∧
    (newBackupFor ctx deployment).ns = deployment.ns ∧
    (newBackupFor ctx deployment).name = "backup-" ++ ctx.uuid ∧
    (importedStatus ctx backupMeta).state = LifecycleState.ready ∧
    (importedStatus ctx backupMeta).available = true ∧
    (importedStatus ctx backupMeta).backup =
      some { id := backupMeta.id, version := backupMeta.version,
             creationTimestamp := ctx.now, imported := some true } := by
  refine ⟨?_, rfl, rfl, rfl, rfl, rfl, rfl⟩
  simp [refreshDeploymentBackup, hun, hc, hu]

/-- A fault-free refresher context. -/
def rctx : RCtx := { uuid := "u1", now := 10, createFault := none, statusUpdateFault := none }

/-- The deployment the refresher scans. -/
def deployment1 : ArangoDeployment := { name := "depl", ns := "ns" }

/-- A physical backup reported by the driver. -/
def meta1 : BackupMeta := { id := "xyz", version := "3.5" }

/-- An existing resource with neither download request nor descriptor. -/
def noDescBackup : ArangoBackup := { sampleBackup with name := "b0" }

/-- The descriptor carrying the external ID xyz. -/
def xyzDetails : ArangoBackupDetails :=
  { id := "xyz", version := "3.5", creationTimestamp := 1, imported := none }

/-- An existing resource whose descriptor carries the external ID xyz. -/
def matchBackup : ArangoBackup :=
  { sampleBackup with
    name := "b2"
    status := { sampleStatus with backup := some xyzDetails } }

/-- Witness for C3: the unmatched physical backup xyz yields exactly the
create and the Ready/imported status write. -/
theorem c3_witness :
    refreshDeploymentBackup rctx deployment1 meta1 [noDescBackup] =
      (Except.ok (),
       [REffect.create (newBackupFor rctx deployment1),
        REffect.writeStatus (importedStatus rctx meta1)]) := by
  exact (c3_unmatched_backup_created_directly_ready_imported rctx deployment1 meta1
    [noDescBackup] (by decide) rfl rfl).1

/-- Witness for C10: with a descriptor-less resource ahead of the matching
resource in the list, the refresh step still returns success with no create
and no write. -/
theorem c10_witness :
    refreshDeploymentBackup rctx deployment1 meta1 [noDescBackup, matchBackup] =
      (Except.ok (), []) := by
  exact c10_matched_backup_produces_no_writes rctx deployment1 meta1
    [noDescBackup, matchBackup] matchBackup (by simp)
    (Or.inr ⟨xyzDetails, rfl, rfl⟩)

/-- When every attempt fails, the bounded retry surfaces the error of the
final attempt. -/
lemma RetryFrom_all_error (f : Nat → Except Err Unit) (errs : Nat → Err)
    (hf : ∀ k, f k = Except.error (errs k)) :
    ∀ n i, 0 < n → RetryFrom f i n = Except.error (errs (i + n - 1)) := by
  intro n
  induction n with
  | zero =>
    intro i h
    exact absurd h (by omega)
  | succ m ih =>
    intro i hpos
    cases m with
    | zero =>
      simpa [RetryFrom] using hf i
    | succ m2 =>
      have step : RetryFrom f i (m2 + 2) = RetryFrom f (i + 1) (m2 + 1) := by
        simp [RetryFrom, hf i]
      have harg : i + 1 + (m2 + 1) - 1 = i + (m2 + 2) - 1 := by omega
      rw [step, ih (i + 1) (by omega), harg]

/-- When the first j attempts fail and attempt j succeeds within the budget,
the bounded retry succeeds. -/
lemma RetryFrom_ok_at (f : Nat → Except Err Unit) :
    ∀ n i j, j + 1 ≤ n → (∀ k, k < j → ∃ e, f (i + k) = Except.error e) →
      f (i + j) = Except.ok () → RetryFrom f i n = Except.ok () := by
  intro n
  induction n with
  | zero =>
    intro i j h _ _
    exact absurd h (by omega)
  | succ m ih =>
    intro i j hle hfail hok
    cases m with
    | zero =>
      have hj : j = 0 := by omega
      subst hj
      simpa [RetryFrom] using hok
    | succ m2 =>
      cases j with
      | zero =>
        have hfi : f i = Except.ok () := by simpa using hok
        simp [RetryFrom, hfi]
      | succ j2 =>
        obtain ⟨e, he⟩ := hfail 0 (by omega)
        have he2 : f i = Except.error e := by simpa using he
        have step : RetryFrom f i (m2 + 2) = RetryFrom f (i + 1) (m2 + 1) := by
          simp [RetryFrom, he2]
        rw [step]
        apply ih (i + 1) j2 (by omega)
        · intro k hk
          obtain ⟨e3, he3⟩ := hfail (k + 1) (by omega)
          refine ⟨e3, ?_⟩
          rw [← he3]
          congr 1
          omega
        · rw [← hok]
          congr 1
          omega

/-- The bounded retry consults only the attempts inside its budget. -/
lemma RetryFrom_congr (f g : Nat → Except Err Unit) :
    ∀ n i, (∀ k, i ≤ k → k < i + n → f k = g k) →
      RetryFrom f i n = RetryFrom g i n := by
  intro n
  induction n with
  | zero =>
    intro i _
    rfl
  | succ m ih =>
    intro i h
    cases m with
    | zero =>
      simpa [RetryFrom] using h i (by omega) (by omega)
    | succ m2 =>
      have hfg : f i = g i := h i (by omega) (by omega)
      cases hgi : g i with
      | ok a =>
        simp [RetryFrom, hfg, hgi]
      | error e =>
        have step1 : RetryFrom f i (m2 + 2) = RetryFrom f (i + 1) (m2 + 1) := by
          simp [RetryFrom, hfg, hgi]
        have step2 : RetryFrom g i (m2 + 2) = RetryFrom g (i + 1) (m2 + 1) := by
          simp [RetryFrom, hgi]
        rw [step1, step2]
        exact ih (i + 1) (fun k hk1 hk2 => h k (by omega) (by omega))

/-- C4: the Status Updater runs the fetch-replace-write attempt at most 25
times with one-second spacing, re-fetching the latest version before each
write; a run with conflicts on the first 24 attempts and success on the 25th
succeeds; exhausting all 25 attempts surfaces exactly the final attempt's
error; and the outcome depends only on the 25 attempts inside the budget. -/
theorem c4_status_updater_retry_budget :
    (∀ (get : Nat → Except Err ArangoBackup) (write : Nat → ArangoBackup → Except Err Unit)
       (desired : ArangoBackupStatus) (i : Nat) (bk : ArangoBackup),
       get i = Except.ok bk →
       statusAttempt get write desired i = write i { bk with status := desired }) ∧
    (∀ (get : Nat → Except Err ArangoBackup) (write : Nat → ArangoBackup → Except Err Unit)
       (desired : ArangoBackupStatus),
       (∀ i, i < 24 → ∃ e, statusAttempt get write desired i = Except.error e) →
       statusAttempt get write desired 24 = Except.ok () →
       updateBackupStatus get write desired = Except.ok ()) ∧
    (∀ (get : Nat → Except Err ArangoBackup) (write : Nat → ArangoBackup → Except Err Unit)
       (desired : ArangoBackupStatus) (errs : Nat → Err),
       (∀ i, statusAttempt get write desired i = Except.error (errs i)) →
       updateBackupStatus get write desired = Except.error (errs 24)) ∧
    (∀ f g : Nat → Except Err Unit, (∀ k, k < 25 → f k = g k) →
       Retry 25 1 f = Retry 25 1 g) ∧
    updateBackupStatusAttempts = 25 ∧
    updateBackupStatusDelaySeconds = 1 := by
  refine ⟨?_, ?_, ?_, ?_, rfl, rfl⟩
  · intro get write desired i bk hget
    simp [statusAttempt, hget]
  · intro get write desired hfail hok
    unfold updateBackupStatus Retry
    apply RetryFrom_ok_at (statusAttempt get write desired) 25 0 24 (by omega)
    · intro k hk
      simpa using hfail k hk
    · simpa using hok
  · intro get write desired errs hall
    unfold updateBackupStatus Retry
    have h := RetryFrom_all_error (statusAttempt get write desired) errs hall 25 0 (by omega)
    simpa using h
  · intro f g h
    unfold Retry
    exact RetryFrom_congr f g 25 0 (fun k hk1 hk2 => h k (by omega))

/-- A store Get that always succeeds with the sample resource. -/
def okGet : Nat → Except Err ArangoBackup := fun _ => Except.ok sampleBackup

/-- A status write that conflicts on the first 24 attempts and succeeds on
the 25th. -/
def conflictWrite : Nat → ArangoBackup → Except Err Unit :=
  fun i _ => if i < 24 then Except.error (Err.msg "conflict") else Except.ok ()

/-- Witness for C4: conflicts on attempts 1 through 24 followed by success
on attempt 25 make the status updater succeed. -/
theorem c4_witness : updateBackupStatus okGet conflictWrite sampleStatus = Except.ok () := by
  exact c4_status_updater_retry_budget.2.1 okGet conflictWrite sampleStatus
    (fun i hi => ⟨Err.msg "conflict", by simp [statusAttempt, okGet, conflictWrite, hi]⟩)
    (by simp [statusAttempt, okGet, conflictWrite])
